import Mathlib

/-!
Shallow embedding of the receipt-parsing pipeline of the shopsavvy backend
(api/services/ocr_service.py together with the content-type validation of
api/routers/receipts.py).  Text is modelled as a list of characters; the
regular expressions of the source are translated into explicit scanning
functions; monetary values are modelled exactly as a numerator together
with a power-of-ten scale.
-/

namespace ShopSavvy

/-- Characters that Python treats as whitespace for str.strip and the
regex class \s (ASCII subset relevant here). -/
def isPySpace (c : Char) : Bool :=
  c = ' ' || c = '\t' || c = '\n' || c = '\r' || c = '\x0b' || c = '\x0c'

/-- ASCII model of Python str.lower on a single character. -/
def lowerChar (c : Char) : Char :=
  match c with
  | 'A' => 'a' | 'B' => 'b' | 'C' => 'c' | 'D' => 'd' | 'E' => 'e'
  | 'F' => 'f' | 'G' => 'g' | 'H' => 'h' | 'I' => 'i' | 'J' => 'j'
  | 'K' => 'k' | 'L' => 'l' | 'M' => 'm' | 'N' => 'n' | 'O' => 'o'
  | 'P' => 'p' | 'Q' => 'q' | 'R' => 'r' | 'S' => 's' | 'T' => 't'
  | 'U' => 'u' | 'V' => 'v' | 'W' => 'w' | 'X' => 'x' | 'Y' => 'y'
  | 'Z' => 'z' | c => c

/-- Python str.lower over a whole text. -/
def pyLower (s : List Char) : List Char := s.map lowerChar

/-- Python str.strip: remove leading and trailing whitespace. -/
def pyStrip (s : List Char) : List Char :=
  ((s.dropWhile isPySpace).reverse.dropWhile isPySpace).reverse

/-- Python text.split of a string on the newline character. -/
def splitLines : List Char → List (List Char)
  | [] => [[]]
  | c :: cs =>
    if c = '\n' then [] :: splitLines cs
    else
      match splitLines cs with
      | [] => [[c]]
      | l :: ls => (c :: l) :: ls

/-- The line list built by _parse_expense_data: split on newline, strip each
line, keep the non-empty ones. -/
def cleanLines (text : List Char) : List (List Char) :=
  ((splitLines text).map pyStrip).filter (fun l => !l.isEmpty)

def isSlashDash (c : Char) : Bool := c = '/' || c = '-'

/-- The regex class \w, ASCII model: letters, digits, underscore. -/
def isWordChar (c : Char) : Bool := c.isAlphanum || c = '_'

/-- Generic re.findall loop: at each position try the anchored matcher,
on success record the captured group and resume after the match, otherwise
advance one character.  Fuel is the length of the scanned text; every
matcher used here consumes at least one character, so the fuel never runs
out before the text does. -/
def scanAllF (matchAt : List Char → Option (List Char × List Char)) :
    Nat → List Char → List (List Char)
  | 0, _ => []
  | _ + 1, [] => []
  | fuel + 1, c :: cs =>
    match matchAt (c :: cs) with
    | some (cap, rest) => cap :: scanAllF matchAt fuel rest
    | none => scanAllF matchAt fuel cs

def scanAll (matchAt : List Char → Option (List Char × List Char))
    (s : List Char) : List (List Char) :=
  scanAllF matchAt s.length s

/-- Generic re.sub with empty replacement: delete every match, keep the
remaining characters. -/
def subRemoveF (matchAt : List Char → Option (List Char × List Char)) :
    Nat → List Char → List Char
  | 0, s => s
  | _ + 1, [] => []
  | fuel + 1, c :: cs =>
    match matchAt (c :: cs) with
    | some (_, rest) => subRemoveF matchAt fuel rest
    | none => c :: subRemoveF matchAt fuel cs

def subRemove (matchAt : List Char → Option (List Char × List Char))
    (s : List Char) : List Char :=
  subRemoveF matchAt s.length s

/-- Generic re.search: return the captured group of the leftmost match. -/
def searchFirst (matchAt : List Char → Option (List Char)) :
    List Char → Option (List Char)
  | [] => none
  | c :: cs =>
    match matchAt (c :: cs) with
    | some cap => some cap
    | none => searchFirst matchAt cs

/-- Anchored matcher for the two-decimal money shape of the source. On
success returns the captured digits-dot-digits string and the rest of the
text after the match. -/
def matchMoney (s : List Char) : Option (List Char × List Char) :=
  let ds := s.takeWhile Char.isDigit
  let r := s.dropWhile Char.isDigit
  if ds.isEmpty then none
  else
    match r with
    | '.' :: a :: b :: rest =>
      if a.isDigit && b.isDigit then some (ds ++ '.' :: [a, b], rest) else none
    | _ => none

/-- Anchored matcher for the dollar-sign money pattern of _extract_amount:
literal dollar sign followed by the money shape; the group excludes the sign. -/
def matchDollarMoney (s : List Char) : Option (List Char × List Char) :=
  match s with
  | '$' :: rest => matchMoney rest
  | _ => none

/-- Anchored matcher for the second pattern of _extract_amount: the word
total, then colons and whitespace, then the money shape. -/
def matchTotalMoney (s : List Char) : Option (List Char × List Char) :=
  if (("total".data)).isPrefixOf s then
    matchMoney ((s.drop 5).dropWhile (fun c => c = ':' || isPySpace c))
  else none

/-- The ordered label alternation of the first pattern of _extract_amount. -/
def amountLabels : List (List Char) :=
  [("total".data), ("amount".data), ("sum".data), ("grand total".data),
   ("subtotal".data)]

/-- The optional dollar sign of a monetary pattern: drop it when present. -/
def dropDollar (s : List Char) : List Char :=
  match s with
  | '$' :: t => t
  | t => t

/-- The trailing number shape of the first pattern of _extract_amount:
digits with an optional dot and further digits, captured greedily. -/
def matchNumberTail (r3 : List Char) : Option (List Char × List Char) :=
  let ds := r3.takeWhile Char.isDigit
  let r4 := r3.dropWhile Char.isDigit
  if ds.isEmpty then none
  else
    match r4 with
    | '.' :: r5 =>
      some (ds ++ '.' :: r5.takeWhile Char.isDigit, r5.dropWhile Char.isDigit)
    | _ => some (ds, r4)

/-- Anchored matcher for the first pattern of _extract_amount: one of the
amount labels, then colons and whitespace, an optional dollar sign, then
digits with an optional fractional part. -/
def matchLabelAmount (s : List Char) : Option (List Char × List Char) :=
  match amountLabels.find? (fun l => l.isPrefixOf s) with
  | none => none
  | some l =>
    matchNumberTail
      (dropDollar ((s.drop l.length).dropWhile (fun c => c = ':' || isPySpace c)))

/-- End-of-input position of an unanchored regex dollar without the
multiline flag: the very end of the text, or just before a final newline. -/
def endPos (t : List Char) : Bool := t.isEmpty || t = ['\n']

/-- Backtracking over the greedy whitespace run of the fourth pattern of
_extract_amount: consume k whitespace characters (largest first) and then
require the word total or the end position. -/
def tryTotalOrEnd (t : List Char) : Nat → Option (List Char)
  | 0 =>
    if (("total".data)).isPrefixOf t then some (t.drop 5)
    else if endPos t then some t
    else none
  | k + 1 =>
    let rest := t.drop (k + 1)
    if (("total".data)).isPrefixOf rest then some (rest.drop 5)
    else if endPos rest then some rest
    else tryTotalOrEnd t k

/-- Anchored matcher for the fourth pattern of _extract_amount: the money
shape followed by optional whitespace and then the word total or the end
position. -/
def matchMoneyTotal (s : List Char) : Option (List Char × List Char) :=
  match matchMoney s with
  | none => none
  | some (cap, rest) =>
    match tryTotalOrEnd rest ((rest.takeWhile isPySpace).length) with
    | none => none
    | some rest2 => some (cap, rest2)

/-- Anchored matcher for the item price pattern: optionally dollar-prefixed
money shape; the group excludes the sign. -/
def matchOptDollarMoney (s : List Char) : Option (List Char × List Char) :=
  matchMoney (dropDollar s)

/-- Numeric value of a digit string. -/
def digitsToNat (ds : List Char) : Nat :=
  ds.foldl (fun acc c => 10 * acc + (c.toNat - 48)) 0

/-- Exact value of a parsed decimal token: the represented number is
num divided by ten to the scale.  Models the value of the Python float
obtained from a captured group (always a non-negative decimal literal). -/
structure DecNum where
  num : Nat
  scale : Nat
deriving DecidableEq

/-- Value-level order on parsed decimals: compare after clearing the
power-of-ten denominators. -/
def DecNum.le (a b : DecNum) : Prop :=
  a.num * 10 ^ b.scale ≤ b.num * 10 ^ a.scale

instance (a b : DecNum) : Decidable (a.le b) := by
  unfold DecNum.le; infer_instance

/-- The Python max step over floats: replace the current maximum exactly
when the new value is strictly greater. -/
def pyMax (cur v : DecNum) : DecNum :=
  if cur.num * 10 ^ v.scale < v.num * 10 ^ cur.scale then v else cur

/-- Value of a captured decimal string (digits with an optional dot and
fractional digits); models Python float conversion of the captured groups. -/
def decVal (s : List Char) : DecNum :=
  let ip := s.takeWhile Char.isDigit
  let r := s.dropWhile Char.isDigit
  match r with
  | '.' :: fr =>
    let fds := fr.takeWhile Char.isDigit
    ⟨digitsToNat ip * 10 ^ fds.length + digitsToNat fds, fds.length⟩
  | _ => ⟨digitsToNat ip, 0⟩

/-- All captures produced by the five ordered monetary patterns of
_extract_amount over the lowercased text, in pattern order. -/
def amountCandidates (text : List Char) : List (List Char) :=
  let tl := pyLower text
  scanAll matchLabelAmount tl ++ scanAll matchTotalMoney tl ++
    scanAll matchDollarMoney tl ++ scanAll matchMoneyTotal tl ++
    scanAll matchMoney tl

/-- The parsed candidate amounts that survive the plausibility filter of
_extract_amount: at least one hundredth and at most ten thousand. -/
def survivingAmounts (text : List Char) : List DecNum :=
  ((amountCandidates text).map decVal).filter
    (fun a => decide (DecNum.le ⟨1, 2⟩ a) && decide (DecNum.le a ⟨10000, 0⟩))

/-- _extract_amount: the maximum surviving candidate, absent when none. -/
def extract_amount (text : List Char) : Option DecNum :=
  match survivingAmounts text with
  | [] => none
  | a :: as => some (as.foldl pyMax a)

/-- Anchored matcher for the first date pattern: one or two digits, a slash
or hyphen, one or two digits, a slash or hyphen, two to four digits. -/
def matchDate1 (s : List Char) : Option (List Char) :=
  let d1 := s.takeWhile Char.isDigit
  if d1.length = 0 || 2 < d1.length then none
  else
    match s.drop d1.length with
    | c1 :: r1 =>
      if isSlashDash c1 then
        let d2 := r1.takeWhile Char.isDigit
        if d2.length = 0 || 2 < d2.length then none
        else
          match r1.drop d2.length with
          | c2 :: r2 =>
            if isSlashDash c2 then
              let d3 := r2.takeWhile Char.isDigit
              if d3.length < 2 then none
              else some (d1 ++ c1 :: (d2 ++ c2 :: d3.take 4))
            else none
          | [] => none
      else none
    | [] => none

/-- Anchored matcher for the second date pattern: four digits, a slash or
hyphen, one or two digits, a slash or hyphen, one or two digits. -/
def matchDate2 (s : List Char) : Option (List Char) :=
  let d1 := s.takeWhile Char.isDigit
  if d1.length ≠ 4 then none
  else
    match s.drop 4 with
    | c1 :: r1 =>
      if isSlashDash c1 then
        let d2 := r1.takeWhile Char.isDigit
        if d2.length = 0 || 2 < d2.length then none
        else
          match r1.drop d2.length with
          | c2 :: r2 =>
            if isSlashDash c2 then
              let d3 := r2.takeWhile Char.isDigit
              if d3.isEmpty then none
              else some (d1 ++ c1 :: (d2 ++ c2 :: d3.take 2))
            else none
          | [] => none
      else none
    | [] => none

/-- Anchored matcher for the third date pattern: one or two digits,
whitespace, a word, whitespace, four digits. -/
def matchDate3 (s : List Char) : Option (List Char) :=
  let d1 := s.takeWhile Char.isDigit
  if d1.length = 0 || 2 < d1.length then none
  else
    let r1 := s.drop d1.length
    let sp1 := r1.takeWhile isPySpace
    if sp1.isEmpty then none
    else
      let r2 := r1.drop sp1.length
      let w := r2.takeWhile isWordChar
      if w.isEmpty then none
      else
        let r3 := r2.drop w.length
        let sp2 := r3.takeWhile isPySpace
        if sp2.isEmpty then none
        else
          let r4 := r3.drop sp2.length
          let d2 := r4.takeWhile Char.isDigit
          if d2.length < 4 then none
          else some (d1 ++ sp1 ++ w ++ sp2 ++ d2.take 4)

/-- Anchored matcher for the fourth date pattern: a word, whitespace, one
or two digits, an optional comma, whitespace, four digits. -/
def matchDate4 (s : List Char) : Option (List Char) :=
  let w := s.takeWhile isWordChar
  if w.isEmpty then none
  else
    let r1 := s.drop w.length
    let sp1 := r1.takeWhile isPySpace
    if sp1.isEmpty then none
    else
      let r2 := r1.drop sp1.length
      let d1 := r2.takeWhile Char.isDigit
      if d1.length = 0 || 2 < d1.length then none
      else
        let r3 := r2.drop d1.length
        let r4 := match r3 with
          | ',' :: t => t
          | t => t
        let comma : List Char := match r3 with
          | ',' :: _ => [',']
          | _ => []
        let sp2 := r4.takeWhile isPySpace
        if sp2.isEmpty then none
        else
          let r5 := r4.drop sp2.length
          let d2 := r5.takeWhile Char.isDigit
          if d2.length < 4 then none
          else some (w ++ sp1 ++ d1 ++ comma ++ sp2 ++ d2.take 4)

/-- _extract_date: the four date patterns tried in order, each searched
over the whole text, returning the first match. -/
def extract_date (text : List Char) : Option (List Char) :=
  match searchFirst matchDate1 text with
  | some m => some m
  | none =>
    match searchFirst matchDate2 text with
    | some m => some m
    | none =>
      match searchFirst matchDate3 text with
      | some m => some m
      | none => searchFirst matchDate4 text

/-- First disqualification regex of _extract_merchant: the line starts with
digits, a slash or hyphen, and another digit. -/
def leadingDateB (l : List Char) : Bool :=
  let d1 := l.takeWhile Char.isDigit
  if d1.isEmpty then false
  else
    match l.drop d1.length with
    | c :: r =>
      isSlashDash c &&
        (match r with
         | c2 :: _ => c2.isDigit
         | [] => false)
    | [] => false

/-- Character class of the second disqualification regex of
_extract_merchant: digits, whitespace, hyphens, periods, dollar signs. -/
def pureNumChar (c : Char) : Bool :=
  c.isDigit || isPySpace c || c = '-' || c = '.' || c = '$'

/-- Second disqualification regex of _extract_merchant: the line is a
non-empty run of characters drawn entirely from the numeric-like class. -/
def pureNumB (l : List Char) : Bool := !l.isEmpty && l.all pureNumChar

/-- A line is disqualified as a merchant name by _extract_merchant. -/
def disqualifiedB (l : List Char) : Bool :=
  leadingDateB l || decide (l.length < 3) || pureNumB l

/-- The loop body of _extract_merchant over the candidate lines. -/
def merchantLoop : List (List Char) → List Char
  | [] => ("Unknown Merchant".data)
  | l :: ls =>
    if leadingDateB l || decide (l.length < 3) then merchantLoop ls
    else if pureNumB l then merchantLoop ls
    else l

/-- _extract_merchant: scan only the first five lines. -/
def extract_merchant (lines : List (List Char)) : List Char :=
  merchantLoop (lines.take 5)

/-- A single extracted line item. -/
structure LineItem where
  name : List Char
  price : DecNum
deriving DecidableEq

/-- One iteration of the _extract_items loop: the monetary tokens of the
line, the cleaned residual name, and the keep-or-drop decision. -/
def itemOfLine (line : List Char) : Option LineItem :=
  let prices := scanAll matchOptDollarMoney line
  match prices.getLast? with
  | none => none
  | some p =>
    let n1 := pyStrip (subRemove matchOptDollarMoney line)
    let n2 := pyStrip (n1.map (fun c => if isWordChar c || isPySpace c then c else ' '))
    if 2 < n2.length then some ⟨n2, decVal p⟩ else none

/-- _extract_items: collect qualifying lines in order, truncate to ten. -/
def extract_items (lines : List (List Char)) : List LineItem :=
  (lines.filterMap itemOfLine).take 10

def foodKeywords : List (List Char) :=
  [("restaurant".data), ("cafe".data), ("coffee".data), ("pizza".data),
   ("burger".data), ("food".data), ("dining".data), ("kitchen".data),
   ("bistro".data), ("grill".data)]

def shoppingKeywords : List (List Char) :=
  [("store".data), ("shop".data), ("market".data), ("mall".data),
   ("retail".data), ("walmart".data), ("target".data), ("amazon".data)]

def transportKeywords : List (List Char) :=
  [("gas".data), ("fuel".data), ("station".data), ("uber".data),
   ("taxi".data), ("bus".data), ("metro".data), ("parking".data)]

def billsKeywords : List (List Char) :=
  [("electric".data), ("water".data), ("internet".data), ("phone".data),
   ("utility".data), ("bill".data), ("payment".data)]

def healthKeywords : List (List Char) :=
  [("pharmacy".data), ("hospital".data), ("clinic".data), ("medical".data),
   ("doctor".data), ("health".data)]

/-- Substring test: the needle occurs contiguously inside the haystack. -/
def containsSub (needle : List Char) : List Char → Bool
  | [] => needle.isEmpty
  | c :: cs => needle.isPrefixOf (c :: cs) || containsSub needle cs

/-- Python keyword-in-merchant test of _determine_category. -/
def containsAny (hay : List Char) (keys : List (List Char)) : Bool :=
  keys.any (fun k => containsSub k hay)

/-- _determine_category: keyword sets tested in fixed priority order over
the lowercased merchant; the item list is received but never consulted. -/
def determine_category (merchant : List Char) (_items : List LineItem) :
    List Char :=
  let ml := pyLower merchant
  if containsAny ml foodKeywords then ("food".data)
  else if containsAny ml shoppingKeywords then ("shopping".data)
  else if containsAny ml transportKeywords then ("transport".data)
  else if containsAny ml billsKeywords then ("bills".data)
  else if containsAny ml healthKeywords then ("healthcare".data)
  else ("other".data)

/-- The dictionary assembled by _parse_expense_data. -/
structure ParsedData where
  amount : Option DecNum
  date : Option (List Char)
  merchant : List Char
  items : List LineItem
  category : List Char
  description : List Char
deriving DecidableEq

/-- _parse_expense_data: run the five extractors over the recognized text
and assemble the record; the description falls back only when the merchant
string is empty. -/
def parse_expense_data (text : List Char) : ParsedData :=
  let lines := cleanLines text
  let merchant := extract_merchant lines
  let items := extract_items lines
  { amount := extract_amount text
    date := extract_date text
    merchant := merchant
    items := items
    category := determine_category merchant items
    description :=
      if merchant.isEmpty then ("Receipt expense".data)
      else ("Receipt from ".data) ++ merchant }

/-- Outcome of one pipeline invocation. -/
inductive PipelineResult where
  | success (rawText : List Char) (parsed : ParsedData)
  | failure (reason : List Char)
deriving DecidableEq

/-- The receipt-parsing endpoint: content-type validation of the router,
then image decoding, then recognition, then field extraction.  The decoder
and the recognizer are external collaborators passed as functions. -/
def parse_receipt_endpoint {β γ : Type} (decode : β → Option γ)
    (recognize : γ → List Char) (contentType : List Char) (file : β) :
    PipelineResult :=
  if !(("image/".data)).isPrefixOf contentType then
    .failure ("File must be an image".data)
  else
    match decode file with
    | none => .failure ("Could not read image file".data)
    | some img =>
      let raw := recognize img
      .success raw (parse_expense_data raw)

/-! ### Helper lemmas -/

/-- A text containing no numeric tokens at all: no character is a digit. -/
def noDigit (s : List Char) : Prop := ∀ c ∈ s, c.isDigit = false

instance (s : List Char) : Decidable (noDigit s) := by
  unfold noDigit; infer_instance

theorem noDigit_of_subset {s t : List Char} (hsub : t ⊆ s) (h : noDigit s) :
    noDigit t :=
  fun c hc => h c (hsub hc)

theorem noDigit_cons {c : Char} {cs : List Char} (h : noDigit (c :: cs)) :
    noDigit cs :=
  fun d hd => h d (List.mem_cons_of_mem _ hd)

theorem lowerChar_not_digit {c : Char} (h : c.isDigit = false) :
    (lowerChar c).isDigit = false := by
  unfold lowerChar
  split <;> first | decide | exact h

theorem noDigit_pyLower {s : List Char} (h : noDigit s) :
    noDigit (pyLower s) := by
  intro c hc
  rcases List.mem_map.mp hc with ⟨d, hd, rfl⟩
  exact lowerChar_not_digit (h d hd)

theorem takeWhile_digit_nil {s : List Char} (h : noDigit s) :
    s.takeWhile Char.isDigit = [] := by
  cases s with
  | nil => rfl
  | cons c cs => simp [List.takeWhile_cons, h c (List.mem_cons_self _ _)]

theorem noDigit_dropDollar {s : List Char} (h : noDigit s) :
    noDigit (dropDollar s) := by
  unfold dropDollar
  split
  · exact noDigit_cons h
  · exact h

theorem matchMoney_none {s : List Char} (h : noDigit s) :
    matchMoney s = none := by
  unfold matchMoney
  simp [takeWhile_digit_nil h]

theorem matchNumberTail_none {s : List Char} (h : noDigit s) :
    matchNumberTail s = none := by
  unfold matchNumberTail
  simp [takeWhile_digit_nil h]

theorem matchDollarMoney_none {s : List Char} (h : noDigit s) :
    matchDollarMoney s = none := by
  unfold matchDollarMoney
  split
  · exact matchMoney_none (noDigit_cons h)
  · rfl

theorem matchTotalMoney_none {s : List Char} (h : noDigit s) :
    matchTotalMoney s = none := by
  unfold matchTotalMoney
  split
  · exact matchMoney_none
      (noDigit_of_subset
        (fun c hc => List.drop_subset _ _ ((List.dropWhile_sublist _).subset hc)) h)
  · rfl

theorem matchLabelAmount_none {s : List Char} (h : noDigit s) :
    matchLabelAmount s = none := by
  unfold matchLabelAmount
  split
  · rfl
  · exact matchNumberTail_none
      (noDigit_dropDollar
        (noDigit_of_subset
          (fun c hc => List.drop_subset _ _ ((List.dropWhile_sublist _).subset hc)) h))

theorem matchMoneyTotal_none {s : List Char} (h : noDigit s) :
    matchMoneyTotal s = none := by
  unfold matchMoneyTotal
  rw [matchMoney_none h]

theorem matchOptDollarMoney_none {s : List Char} (h : noDigit s) :
    matchOptDollarMoney s = none := by
  unfold matchOptDollarMoney
  exact matchMoney_none (noDigit_dropDollar h)

theorem scanAllF_none {matchAt : List Char → Option (List Char × List Char)}
    (hm : ∀ t, noDigit t → matchAt t = none) :
    ∀ (fuel : Nat) (s : List Char), noDigit s → scanAllF matchAt fuel s = [] := by
  intro fuel
  induction fuel with
  | zero => intro s _; rfl
  | succ n ih =>
    intro s hs
    cases s with
    | nil => rfl
    | cons c cs =>
      simp only [scanAllF, hm (c :: cs) hs]
      exact ih cs (noDigit_cons hs)

theorem survivingAmounts_nil {text : List Char} (h : noDigit text) :
    survivingAmounts text = [] := by
  have hl := noDigit_pyLower h
  simp only [survivingAmounts, amountCandidates, scanAll]
  rw [scanAllF_none (fun t ht => matchLabelAmount_none ht) _ _ hl,
      scanAllF_none (fun t ht => matchTotalMoney_none ht) _ _ hl,
      scanAllF_none (fun t ht => matchDollarMoney_none ht) _ _ hl,
      scanAllF_none (fun t ht => matchMoneyTotal_none ht) _ _ hl,
      scanAllF_none (fun t ht => matchMoney_none ht) _ _ hl]
  rfl

theorem pyStrip_subset (s : List Char) : pyStrip s ⊆ s := by
  intro c hc
  unfold pyStrip at hc
  rw [List.mem_reverse] at hc
  have h1 := (List.dropWhile_sublist (l := (s.dropWhile isPySpace).reverse)
    (p := isPySpace)).subset hc
  rw [List.mem_reverse] at h1
  exact (List.dropWhile_sublist _).subset h1

theorem splitLines_subset : ∀ (s : List Char), ∀ l ∈ splitLines s, l ⊆ s := by
  intro s
  induction s with
  | nil =>
    intro l hl
    simp only [splitLines, List.mem_singleton] at hl
    simp [hl]
  | cons c cs ih =>
    intro l hl
    simp only [splitLines] at hl
    by_cases hc : c = '\n'
    · rw [if_pos hc] at hl
      rcases List.mem_cons.mp hl with rfl | h2
      · intro x hx; simp at hx
      · exact (ih l h2).trans (List.subset_cons_self _ _)
    · rw [if_neg hc] at hl
      cases hm : splitLines cs with
      | nil =>
        rw [hm] at hl
        simp only [List.mem_singleton] at hl
        subst hl
        intro x hx
        rw [List.mem_singleton] at hx
        subst hx
        exact List.mem_cons_self _ _
      | cons l0 ls =>
        rw [hm] at hl
        rcases List.mem_cons.mp hl with rfl | h2
        · intro x hx
          rcases List.mem_cons.mp hx with rfl | h3
          · exact List.mem_cons_self _ _
          · exact List.mem_cons_of_mem _
              (ih l0 (hm ▸ List.mem_cons_self _ _) h3)
        · exact (ih l (hm ▸ List.mem_cons_of_mem _ h2)).trans
            (List.subset_cons_self _ _)

theorem cleanLines_noDigit {text : List Char} (h : noDigit text) :
    ∀ l ∈ cleanLines text, noDigit l := by
  intro l hl
  unfold cleanLines at hl
  have h1 := List.mem_of_mem_filter hl
  rcases List.mem_map.mp h1 with ⟨l0, hl0, rfl⟩
  exact noDigit_of_subset
    ((pyStrip_subset l0).trans (splitLines_subset text l0 hl0)) h

theorem itemOfLine_none {line : List Char} (h : noDigit line) :
    itemOfLine line = none := by
  unfold itemOfLine scanAll
  rw [scanAllF_none (fun t ht => matchOptDollarMoney_none ht) _ _ h]
  rfl

theorem extract_items_nil {text : List Char} (h : noDigit text) :
    extract_items (cleanLines text) = [] := by
  unfold extract_items
  have : (cleanLines text).filterMap itemOfLine = [] := by
    rw [List.filterMap_eq_nil_iff]
    exact fun l hl => itemOfLine_none (cleanLines_noDigit h l hl)
  rw [this]
  rfl

theorem merchantLoop_eq_find (ls : List (List Char)) :
    merchantLoop ls =
      ((ls.find? (fun l => !disqualifiedB l)).getD (("Unknown Merchant".data))) := by
  induction ls with
  | nil => rfl
  | cons l ls ih =>
    cases hL : leadingDateB l <;> cases hLen : decide (l.length < 3) <;>
      cases hP : pureNumB l <;>
      simp [merchantLoop, List.find?, disqualifiedB, hL, hLen, hP, ih]

theorem merchantLoop_ne_nil (ls : List (List Char)) : merchantLoop ls ≠ [] := by
  induction ls with
  | nil => unfold merchantLoop; decide
  | cons l ls ih =>
    unfold merchantLoop
    split
    · exact ih
    · split
      · exact ih
      · rename_i h0 h1
        intro hnil
        subst hnil
        exact h0 (by decide)

theorem DecNum.le_refl (a : DecNum) : a.le a := Nat.le_refl _

theorem DecNum.le_trans {a b c : DecNum} (h1 : a.le b) (h2 : b.le c) :
    a.le c := by
  unfold DecNum.le at h1 h2 ⊢
  have hb : 0 < 10 ^ b.scale := pow_pos (by omega) _
  have key : a.num * 10 ^ c.scale * 10 ^ b.scale ≤
      c.num * 10 ^ a.scale * 10 ^ b.scale := by
    calc a.num * 10 ^ c.scale * 10 ^ b.scale
        = a.num * 10 ^ b.scale * 10 ^ c.scale := by ring
      _ ≤ b.num * 10 ^ a.scale * 10 ^ c.scale := Nat.mul_le_mul_right _ h1
      _ = b.num * 10 ^ c.scale * 10 ^ a.scale := by ring
      _ ≤ c.num * 10 ^ b.scale * 10 ^ a.scale := Nat.mul_le_mul_right _ h2
      _ = c.num * 10 ^ a.scale * 10 ^ b.scale := by ring
  exact Nat.le_of_mul_le_mul_right key hb

theorem pyMax_cases (cur v : DecNum) : pyMax cur v = cur ∨ pyMax cur v = v := by
  unfold pyMax
  split
  · exact Or.inr rfl
  · exact Or.inl rfl

theorem le_pyMax_left (cur v : DecNum) : cur.le (pyMax cur v) := by
  unfold pyMax
  split
  · rename_i h
    exact Nat.le_of_lt h
  · exact DecNum.le_refl cur

theorem le_pyMax_right (cur v : DecNum) : v.le (pyMax cur v) := by
  unfold pyMax
  split
  · exact DecNum.le_refl v
  · rename_i h
    exact Nat.le_of_not_lt h

theorem base_le_foldl_pyMax (a : DecNum) (as : List DecNum) :
    a.le (as.foldl pyMax a) := by
  induction as generalizing a with
  | nil => exact DecNum.le_refl a
  | cons c cs ih =>
    simp only [List.foldl_cons]
    exact DecNum.le_trans (le_pyMax_left a c) (ih (pyMax a c))

theorem mem_foldl_pyMax (a : DecNum) (as : List DecNum) :
    as.foldl pyMax a ∈ a :: as := by
  induction as generalizing a with
  | nil => simp
  | cons b bs ih =>
    simp only [List.foldl_cons]
    rcases List.mem_cons.mp (ih (pyMax a b)) with h | h
    · rcases pyMax_cases a b with hm | hm
      · exact List.mem_cons.mpr (Or.inl (h.trans hm))
      · exact List.mem_cons_of_mem _
          (List.mem_cons.mpr (Or.inl (h.trans hm)))
    · exact List.mem_cons_of_mem _ (List.mem_cons_of_mem _ h)

theorem le_foldl_pyMax (a : DecNum) (as : List DecNum) :
    ∀ b ∈ a :: as, b.le (as.foldl pyMax a) := by
  induction as generalizing a with
  | nil =>
    intro b hb
    rw [List.mem_singleton] at hb
    subst hb
    exact DecNum.le_refl b
  | cons c cs ih =>
    intro b hb
    simp only [List.foldl_cons]
    rcases List.mem_cons.mp hb with rfl | hb2
    · exact DecNum.le_trans (le_pyMax_left b c) (base_le_foldl_pyMax _ _)
    · rcases List.mem_cons.mp hb2 with rfl | hb3
      · exact DecNum.le_trans (le_pyMax_right a b) (base_le_foldl_pyMax _ _)
      · exact ih (pyMax a c) b (List.mem_cons_of_mem _ hb3)

theorem decVal_nonneg (s : List Char) : DecNum.le ⟨0, 0⟩ (decVal s) := by
  unfold DecNum.le
  simp

/-! ### Claim theorems -/

/-- The recognized text of Scenario A of the specification. -/
def scenarioAText : List Char :=
  ("Walmart Supercenter\n01/15/2024\nMilk 3.99\nBread 2.50\nTOTAL $6.49".data)

/-- Claim C1, counterexample: on the Scenario A text the extraction stage
does not return items exactly Milk and Bread — the item extractor also
keeps the TOTAL summary line, whose residual name TOTAL has more than two
characters. -/
theorem C1_scenarioA_items_cex :
    (parse_expense_data scenarioAText).items ≠
      [⟨("Milk".data), ⟨399, 2⟩⟩, ⟨("Bread".data), ⟨250, 2⟩⟩] := by
  decide

/-- Claim C1 (amended): on the Scenario A text the extraction stage returns
merchant Walmart Supercenter, date 01/15/2024, amount 6.49 and category
shopping as claimed, but the items are Milk 3.99, Bread 2.50 and TOTAL 6.49
in that order — the TOTAL line is extracted as a third item. -/
theorem C1_scenarioA_parse :
    parse_expense_data scenarioAText =
      { amount := some ⟨649, 2⟩
        date := some (("01/15/2024".data))
        merchant := ("Walmart Supercenter".data)
        items := [⟨("Milk".data), ⟨399, 2⟩⟩, ⟨("Bread".data), ⟨250, 2⟩⟩,
          ⟨("TOTAL".data), ⟨649, 2⟩⟩]
        category := ("shopping".data)
        description := ("Receipt from Walmart Supercenter".data) } := by
  decide

/-- Claim C2: for every recognized text, the amount extractor parses every
numeric match of the five ordered monetary patterns, keeps the candidates
in the plausible range, and returns the maximum surviving candidate; it
returns absent when no candidate survives, and any returned amount lies in
the range from one hundredth to ten thousand. -/
theorem C2_amount_max_of_surviving (text : List Char) :
    (survivingAmounts text = [] → extract_amount text = none)
    ∧ ∀ a : DecNum, extract_amount text = some a →
        a ∈ survivingAmounts text
        ∧ (∀ b ∈ survivingAmounts text, b.le a)
        ∧ DecNum.le ⟨1, 2⟩ a ∧ DecNum.le a ⟨10000, 0⟩ := by
  constructor
  · intro h
    simp only [extract_amount, h]
  · intro a ha
    cases hs : survivingAmounts text with
    | nil =>
      simp only [extract_amount, hs] at ha
      simp at ha
    | cons x xs =>
      simp only [extract_amount, hs] at ha
      have ha2 : xs.foldl pyMax x = a := Option.some.inj ha
      have hmem : a ∈ x :: xs := by
        rw [← ha2]
        exact mem_foldl_pyMax x xs
      have hle : ∀ b ∈ x :: xs, b.le a := by
        intro b hb
        rw [← ha2]
        exact le_foldl_pyMax x xs b hb
      have hfilter : a ∈ survivingAmounts text := hs ▸ hmem
      unfold survivingAmounts at hfilter
      have h2 := (List.mem_filter.mp hfilter).2
      simp only [Bool.and_eq_true, decide_eq_true_eq] at h2
      exact ⟨hmem, hle, h2.1, h2.2⟩

/-- Witness for C2: a text with no surviving candidate returns absent, and
a concrete receipt returns the maximal in-range candidate five. -/
theorem C2_amount_witness :
    extract_amount (("no numbers here".data)) = none
    ∧ ((⟨500, 2⟩ : DecNum) ∈ survivingAmounts (("total 5.00".data))
        ∧ (∀ b ∈ survivingAmounts (("total 5.00".data)), DecNum.le b ⟨500, 2⟩)
        ∧ DecNum.le ⟨1, 2⟩ ⟨500, 2⟩ ∧ DecNum.le (⟨500, 2⟩ : DecNum) ⟨10000, 0⟩) :=
  ⟨(C2_amount_max_of_surviving (("no numbers here".data))).1 (by decide),
   (C2_amount_max_of_surviving (("total 5.00".data))).2 ⟨500, 2⟩ (by decide)⟩

/-- Claim C3, counterexample: the text Pizza Palace contains no digit at
all, yet the merchant extractor returns the first line instead of the
sentinel and the classifier returns food, not other. -/
theorem C3_noDigit_cex :
    noDigit (("Pizza Palace".data))
    ∧ (parse_expense_data (("Pizza Palace".data))).merchant ≠
        ("Unknown Merchant".data)
    ∧ (parse_expense_data (("Pizza Palace".data))).category ≠ ("other".data) := by
  decide

/-- Claim C3 (amended): for every recognized text with no numeric tokens,
the amount is absent, the item list is empty, and the pipeline result is a
success once an image was decoded and recognized; the merchant is the
sentinel and the category is other only in the further case that every one
of the first five lines is disqualified. -/
theorem C3_noDigit_amended (text : List Char) (h : noDigit text) :
    extract_amount text = none
    ∧ extract_items (cleanLines text) = []
    ∧ (∀ (β γ : Type) (decode : β → Option γ) (recognize : γ → List Char)
        (ct : List Char) (file : β) (img : γ),
        (("image/".data)).isPrefixOf ct = true → decode file = some img →
        recognize img = text →
        parse_receipt_endpoint decode recognize ct file =
          .success text (parse_expense_data text))
    ∧ (((cleanLines text).take 5).all disqualifiedB = true →
        extract_merchant (cleanLines text) = ("Unknown Merchant".data)
        ∧ (parse_expense_data text).category = ("other".data)) := by
  refine ⟨?_, extract_items_nil h, ?_, ?_⟩
  · simp only [extract_amount, survivingAmounts_nil h]
  · intro β γ decode recognize ct file img hct hdec hrec
    simp [parse_receipt_endpoint, hct, hdec, hrec]
  · intro hall
    have hfind : ((cleanLines text).take 5).find? (fun l => !disqualifiedB l) =
        none := by
      rw [List.find?_eq_none]
      intro x hx
      rw [List.all_eq_true] at hall
      simp [hall x hx]
    have hm : extract_merchant (cleanLines text) = ("Unknown Merchant".data) := by
      unfold extract_merchant
      rw [merchantLoop_eq_find, hfind]
      rfl
    refine ⟨hm, ?_⟩
    simp only [parse_expense_data]
    rw [hm]
    rfl

/-- Witness for C3 at a concrete digit-free text all of whose lines are
disqualified. -/
theorem C3_noDigit_witness :
    extract_amount (("--\n--".data)) = none
    ∧ extract_items (cleanLines (("--\n--".data))) = []
    ∧ parse_receipt_endpoint (fun _ : Unit => some ())
        (fun _ : Unit => ("--\n--".data)) (("image/png".data)) () =
        .success (("--\n--".data)) (parse_expense_data (("--\n--".data)))
    ∧ extract_merchant (cleanLines (("--\n--".data))) =
        ("Unknown Merchant".data) := by
  have h := C3_noDigit_amended (("--\n--".data)) (by decide)
  exact ⟨h.1, h.2.1, h.2.2.1 Unit Unit _ _ _ () () (by decide) rfl rfl,
    (h.2.2.2 (by decide)).1⟩

/-- Claim C4, counterexample: a line whose only monetary token is 0.00
produces an item with price zero, so the price of an extracted item is not
always strictly positive. -/
theorem C4_item_price_cex :
    extract_items (cleanLines (("Item 0.00".data))) =
      [⟨("Item".data), ⟨0, 2⟩⟩]
    ∧ DecNum.le (⟨0, 2⟩ : DecNum) ⟨0, 0⟩ := by
  exact ⟨by decide, by decide⟩

/-- Claim C4 (amended): every item returned by the item extractor has a
name longer than two characters (hence non-empty) and a price that is
non-negative; strict positivity fails because a 0.00 token is accepted. -/
theorem C4_item_invariants (lines : List (List Char)) (it : LineItem)
    (h : it ∈ extract_items lines) :
    2 < it.name.length ∧ DecNum.le ⟨0, 0⟩ it.price := by
  unfold extract_items at h
  have h2 : it ∈ lines.filterMap itemOfLine :=
    (List.take_sublist _ _).subset h
  rcases List.mem_filterMap.mp h2 with ⟨line, _, hline⟩
  simp only [itemOfLine] at hline
  split at hline
  · exact absurd hline (by simp)
  · split at hline
    · rename_i hlen
      cases Option.some.inj hline
      exact ⟨hlen, decVal_nonneg _⟩
    · exact absurd hline (by simp)

/-- Witness for C4 at a concrete line. -/
theorem C4_item_invariants_witness :
    2 < (("Milk".data)).length ∧ DecNum.le ⟨0, 0⟩ (⟨399, 2⟩ : DecNum) :=
  C4_item_invariants [(("Milk 3.99".data))] ⟨("Milk".data), ⟨399, 2⟩⟩
    (by decide)

/-- Claim C5, counterexample: when the merchant resolves to the sentinel,
the description is Receipt from Unknown Merchant, not Receipt expense —
the fallback tests emptiness, and the sentinel is a non-empty string. -/
theorem C5_description_cex :
    (parse_expense_data (("--".data))).merchant = ("Unknown Merchant".data)
    ∧ (parse_expense_data (("--".data))).description ≠
        ("Receipt expense".data) := by
  decide

/-- Claim C5 (amended): the merchant is never empty, so the description is
always Receipt from followed by the merchant, including the sentinel case;
the Receipt expense fallback is unreachable. -/
theorem C5_description_amended (text : List Char) :
    (parse_expense_data text).merchant ≠ []
    ∧ (parse_expense_data text).description =
        ("Receipt from ".data) ++ (parse_expense_data text).merchant := by
  have h := merchantLoop_ne_nil ((cleanLines text).take 5)
  simp only [parse_expense_data, extract_merchant]
  refine ⟨h, ?_⟩
  cases hm : merchantLoop ((cleanLines text).take 5) with
  | nil => exact absurd hm h
  | cons c cs => simp

/-- Claim C6: the merchant extractor returns the first of the first five
lines that is not disqualified (leading date-like prefix, numeric-like
character content, or length under three), verbatim, and the sentinel when
none qualifies; the returned string never matches the leading-date or
pure-numeric disqualification patterns. -/
theorem C6_merchant_first_qualifying (text : List Char) :
    extract_merchant (cleanLines text) =
      ((((cleanLines text).take 5).find? (fun l => !disqualifiedB l)).getD
        (("Unknown Merchant".data)))
    ∧ leadingDateB (extract_merchant (cleanLines text)) = false
    ∧ pureNumB (extract_merchant (cleanLines text)) = false := by
  refine ⟨merchantLoop_eq_find _, ?_, ?_⟩ <;>
  · unfold extract_merchant
    rw [merchantLoop_eq_find]
    cases hf : ((cleanLines text).take 5).find? (fun l => !disqualifiedB l) with
    | none => decide
    | some l =>
      have hl := List.find?_some hf
      simp only [Bool.not_eq_eq_eq_not, Bool.not_true] at hl
      simp only [disqualifiedB, Bool.or_eq_false_iff] at hl
      simp only [Option.getD_some]
      first
      | exact hl.1.1
      | exact hl.2

/-- Claim C7: for every byte buffer whose declared content type does not
begin with image/, the pipeline fails with the invalid-content-type reason;
the result is the same for every decoder, so decoding is never attempted. -/
theorem C7_invalid_content_type {β γ : Type} (decode : β → Option γ)
    (recognize : γ → List Char) (ct : List Char) (file : β)
    (h : (("image/".data)).isPrefixOf ct = false) :
    parse_receipt_endpoint decode recognize ct file =
      .failure (("File must be an image".data)) := by
  simp [parse_receipt_endpoint, h]

/-- Witness for C7 at content type text/plain, with a decoder that would
succeed. -/
theorem C7_invalid_content_type_witness :
    parse_receipt_endpoint (fun _ : Unit => some ())
      (fun _ : Unit => ("ignored".data)) (("text/plain".data)) () =
      .failure (("File must be an image".data)) :=
  C7_invalid_content_type _ _ _ _ (by decide)

/-- Claim C8: for every input line list, the item extractor returns at most
ten items. -/
theorem C8_items_at_most_ten (lines : List (List Char)) :
    (extract_items lines).length ≤ 10 := by
  unfold extract_items
  exact List.length_take_le 10 _

/-- Claim C9: the classifier result depends only on the merchant string:
for any two item lists it returns the same category. -/
theorem C9_category_ignores_items (merchant : List Char)
    (items1 items2 : List LineItem) :
    determine_category merchant items1 = determine_category merchant items2 :=
  rfl

/-- Claim C10: the classifier never returns entertainment — its result is
always one of the six categories food, shopping, transport, bills,
healthcare, other. -/
theorem C10_category_never_entertainment (merchant : List Char)
    (items : List LineItem) :
    determine_category merchant items ∈
      [("food".data), ("shopping".data), ("transport".data), ("bills".data),
       ("healthcare".data), ("other".data)]
    ∧ determine_category merchant items ≠ ("entertainment".data) := by
  simp only [determine_category]
  split
  · decide
  · split
    · decide
    · split
      · decide
      · split
        · decide
        · split
          · decide
          · decide

end ShopSavvy
